import Mathlib

/-!
Verification of the homelab-setup state-persistence and step-orchestration
engine: the completion-marker subsystem (`internal/config/markers.go`), the
legacy-marker migration helper (`internal/steps`, `ensureCanonicalMarker`),
the step orchestrator (`internal/cli`, `RunStep` / `RunAll`), the dry-run
filesystem decorator (`internal/system/filesystem_dryrun.go`), and the
configuration default-resolution (`internal/config`, `Defaults` table).

The marker store is embedded as the set of marker file names present in the
marker directory (a duplicate-free view is not assumed; membership is what
the Go code observes via os.Stat / O_EXCL).  Low-level OS failures (mkdir,
create, stat, remove) are modelled by an explicit environment `FSEnv` of
failure flags, mirroring the ways the os package calls in markers.go can
fail; `liveEnv` is the healthy filesystem.  Every operation returns its Go
result paired with the marker-directory state after the call, so that error
paths demonstrably leave the store unchanged.
-/

namespace Homelab

/-- Errors of the marker subsystem: validation errors (raised by
`validateMarkerName` before any I/O) and I/O errors (from the os layer). -/
inductive MError where
  | validation (msg : String)
  | ioe (msg : String)
deriving DecidableEq, Repr

/-- Whether an error is a validation error. -/
def MError.isValidation : MError → Bool
  | .validation _ => true
  | .ioe _ => false

/-- Environment of possible OS-level failures for the marker operations:
`mkdirFails` — os.MkdirAll on the marker directory fails;
`createFails` — os.Create / os.OpenFile(O_CREATE|O_EXCL) fails for a reason
other than the file already existing; `statFails` — os.Stat fails for a
reason other than the file not existing; `removeFails` — os.Remove of an
existing file fails. -/
structure FSEnv where
  mkdirFails : Bool
  createFails : Bool
  statFails : Bool
  removeFails : Bool
deriving DecidableEq, Repr

/-- The healthy filesystem: no OS-level call fails. -/
def liveEnv : FSEnv := ⟨false, false, false, false⟩

/-- The marker-directory state: the names of the marker files present. -/
abbrev MarkerState := List String

/-- Creating a marker file in the directory (os.Create truncates an
existing file, so the set of names gains `name` and nothing else). -/
def insertMarker (s : MarkerState) (name : String) : MarkerState :=
  if s.contains name then s else name :: s

/-- Deleting a marker file from the directory. -/
def removeMarker (s : MarkerState) (name : String) : MarkerState :=
  s.filter (fun m => m ≠ name)

/-- Embedding of strings.Contains(s, c) for a one-character needle. -/
def hasChar (s : String) (c : Char) : Bool :=
  s.toList.contains c

/-- markers.go `validateMarkerName`: rejects the empty name, names with a
path separator, and "." / "..".  Returns the error, or none when valid. -/
def validateMarkerName (name : String) : Option MError :=
  if name = "" then
    some (.validation "marker name cannot be empty")
  else if hasChar name '/' || hasChar name '\\' then
    some (.validation "marker name cannot contain path separators")
  else if name = ".." || name = "." then
    some (.validation "marker name cannot be '.' or '..'")
  else
    none

namespace Markers

/-- markers.go `Create`: validate, os.MkdirAll the marker dir, os.Create
the marker file.  Idempotent on an existing marker. -/
def Create (env : FSEnv) (name : String) (s : MarkerState) :
    Except MError Unit × MarkerState :=
  match validateMarkerName name with
  | some e => (.error e, s)
  | none =>
    if env.mkdirFails then
      (.error (.ioe "failed to create marker directory"), s)
    else if env.createFails then
      (.error (.ioe "failed to create marker file"), s)
    else
      (.ok (), insertMarker s name)

/-- markers.go `CreateIfNotExists`: validate, os.MkdirAll, then
os.OpenFile with O_CREATE|O_EXCL — atomic check-and-create.  An existing
marker yields (false, nil), not an error. -/
def CreateIfNotExists (env : FSEnv) (name : String) (s : MarkerState) :
    Except MError Bool × MarkerState :=
  match validateMarkerName name with
  | some e => (.error e, s)
  | none =>
    if env.mkdirFails then
      (.error (.ioe "failed to create marker directory"), s)
    else if s.contains name then
      (.ok false, s)
    else if env.createFails then
      (.error (.ioe "failed to create marker file"), s)
    else
      (.ok true, insertMarker s name)

/-- markers.go `Exists`: validate, then os.Stat the marker path. -/
def Exists (env : FSEnv) (name : String) (s : MarkerState) :
    Except MError Bool × MarkerState :=
  match validateMarkerName name with
  | some e => (.error e, s)
  | none =>
    if env.statFails then
      (.error (.ioe "failed to check marker existence"), s)
    else
      (.ok (s.contains name), s)

/-- markers.go `Remove`: validate, then os.Remove; a missing marker is not
an error. -/
def Remove (env : FSEnv) (name : String) (s : MarkerState) :
    Except MError Unit × MarkerState :=
  match validateMarkerName name with
  | some e => (.error e, s)
  | none =>
    if s.contains name then
      if env.removeFails then
        (.error (.ioe "failed to remove marker file"), s)
      else
        (.ok (), removeMarker s name)
    else
      (.ok (), s)

/-- markers.go `MarkFailed`: create the failure marker `name ++ "-failed"`. -/
def MarkFailed (env : FSEnv) (name : String) (s : MarkerState) :
    Except MError Unit × MarkerState :=
  Create env (name ++ "-failed") s

/-- markers.go `ClearFailure`: remove the failure marker. -/
def ClearFailure (env : FSEnv) (name : String) (s : MarkerState) :
    Except MError Unit × MarkerState :=
  Remove env (name ++ "-failed") s

/-- markers.go `IsFailed`: check the failure marker. -/
def IsFailed (env : FSEnv) (name : String) (s : MarkerState) :
    Except MError Bool × MarkerState :=
  Exists env (name ++ "-failed") s

end Markers

/-- markers.go `StepStatus`. -/
inductive StepStatus where
  | NotStarted
  | Completed
  | Failed
deriving DecidableEq, Repr

/-- markers.go `GetStatus`: the failure marker is checked first, then the
completion marker. -/
def GetStatus (env : FSEnv) (name : String) (s : MarkerState) :
    Except MError StepStatus × MarkerState :=
  match Markers.IsFailed env name s with
  | (.error e, s') => (.error e, s')
  | (.ok true, s') => (.ok .Failed, s')
  | (.ok false, s') =>
    match Markers.Exists env name s' with
    | (.error e, s'') => (.error e, s'')
    | (.ok true, s'') => (.ok .Completed, s'')
    | (.ok false, s'') => (.ok .NotStarted, s'')

end Homelab

namespace Homelab

/-! Small facts about the marker-directory state. -/

theorem contains_insertMarker_self (s : MarkerState) (n : String) :
    (insertMarker s n).contains n = true := by
  unfold insertMarker
  split <;> simp_all

theorem contains_insertMarker_ne (s : MarkerState) (n m : String) (h : m ≠ n) :
    (insertMarker s n).contains m = s.contains m := by
  unfold insertMarker
  split <;> simp_all

theorem contains_removeMarker_self (s : MarkerState) (n : String) :
    (removeMarker s n).contains n = false := by
  unfold removeMarker
  simp

theorem contains_removeMarker_ne (s : MarkerState) (n m : String) (h : m ≠ n) :
    (removeMarker s n).contains m = s.contains m := by
  unfold removeMarker
  simp [List.mem_filter, h]

/-- Characterization of marker-name validity. -/
theorem validateMarkerName_none_iff (name : String) :
    validateMarkerName name = none ↔
      ¬(name = "") ∧ ¬(hasChar name '/' = true ∨ hasChar name '\\' = true) ∧
      ¬(name = ".." ∨ name = ".") := by
  unfold validateMarkerName
  split_ifs <;> simp_all

/-- Appending the "-failed" suffix preserves marker-name validity. -/
theorem validateMarkerName_append_failed (name : String)
    (hv : validateMarkerName name = none) :
    validateMarkerName (name ++ "-failed") = none := by
  rw [validateMarkerName_none_iff] at hv ⊢
  obtain ⟨h0, hsep, hdots⟩ := hv
  have h1 : ¬ (('/' : Char) ∈ name.data) := by
    intro hmem
    exact hsep (Or.inl (by simpa [hasChar, String.toList] using hmem))
  have h2 : ¬ (('\\' : Char) ∈ name.data) := by
    intro hmem
    exact hsep (Or.inr (by simpa [hasChar, String.toList] using hmem))
  have hdata : (name ++ "-failed").data = name.data ++ ("-failed" : String).data := by
    simp
  have h7 : ("-failed" : String).data.length = 7 := by decide
  have hsep1 : ¬ (('/' : Char) ∈ ("-failed" : String).data) := by decide
  have hsep2 : ¬ (('\\' : Char) ∈ ("-failed" : String).data) := by decide
  refine ⟨?_, ?_, ?_⟩
  · intro h
    have h3 := congrArg String.data h
    rw [hdata] at h3
    have h4 := congrArg List.length h3
    rw [List.length_append, h7] at h4
    have h5 : ("" : String).data.length = 0 := by decide
    rw [h5] at h4
    omega
  · rintro (h | h)
    · rw [show hasChar (name ++ "-failed") '/' = true ↔
          ('/' : Char) ∈ (name ++ "-failed").data by
        simp [hasChar, String.toList]] at h
      rw [hdata] at h
      rcases List.mem_append.mp h with h' | h'
      · exact h1 h'
      · exact hsep1 h'
    · rw [show hasChar (name ++ "-failed") '\\' = true ↔
          ('\\' : Char) ∈ (name ++ "-failed").data by
        simp [hasChar, String.toList]] at h
      rw [hdata] at h
      rcases List.mem_append.mp h with h' | h'
      · exact h2 h'
      · exact hsep2 h'
  · rintro (h | h)
    · have h3 := congrArg String.data h
      rw [hdata] at h3
      have h4 := congrArg List.length h3
      rw [List.length_append, h7] at h4
      have h5 : (".." : String).data.length = 2 := by decide
      rw [h5] at h4
      omega
    · have h3 := congrArg String.data h
      rw [hdata] at h3
      have h4 := congrArg List.length h3
      rw [List.length_append, h7] at h4
      have h5 : ("." : String).data.length = 1 := by decide
      rw [h5] at h4
      omega

/-- A name with a path separator or equal to "." / ".." is rejected by
`validateMarkerName` with a validation error. -/
theorem validateMarkerName_invalid (name : String)
    (h : hasChar name '/' = true ∨ hasChar name '\\' = true ∨
         name = "." ∨ name = "..") :
    ∃ m, validateMarkerName name = some (.validation m) := by
  rcases h with h | h | h | h
  · have hne : name ≠ "" := by
      intro he
      rw [he] at h
      exact absurd h (by decide)
    exact ⟨"marker name cannot contain path separators",
      by unfold validateMarkerName; simp [hne, h]⟩
  · have hne : name ≠ "" := by
      intro he
      rw [he] at h
      exact absurd h (by decide)
    exact ⟨"marker name cannot contain path separators",
      by unfold validateMarkerName; simp [hne, h]⟩
  · exact ⟨"marker name cannot be '.' or '..'", by rw [h]; decide⟩
  · exact ⟨"marker name cannot be '.' or '..'", by rw [h]; decide⟩

/-- C1: for a valid marker name, `CreateIfNotExists` returns (false, nil)
and leaves the store unchanged when the marker already exists (success, not
an error), and returns (true, nil) with the marker present afterwards when
it was absent. -/
theorem createIfNotExists_spec (name : String) (s : MarkerState)
    (hv : validateMarkerName name = none) :
    (s.contains name = true →
      Markers.CreateIfNotExists liveEnv name s = (.ok false, s)) ∧
    (s.contains name = false →
      (Markers.CreateIfNotExists liveEnv name s).1 = .ok true ∧
      ((Markers.CreateIfNotExists liveEnv name s).2).contains name = true) := by
  unfold Markers.CreateIfNotExists liveEnv
  rw [hv]
  constructor
  · intro hc
    simp at hc
    simp [hc]
  · intro hc
    simp at hc
    simp [hc, insertMarker]

theorem createIfNotExists_spec_witness :
    Markers.CreateIfNotExists liveEnv "user-setup-complete"
        ["user-setup-complete"] = (.ok false, ["user-setup-complete"]) ∧
    ((Markers.CreateIfNotExists liveEnv "user-setup-complete" []).1 = .ok true ∧
      ((Markers.CreateIfNotExists liveEnv "user-setup-complete" []).2).contains
        "user-setup-complete" = true) :=
  ⟨(createIfNotExists_spec "user-setup-complete" ["user-setup-complete"]
      (by decide)).1 (by decide),
   (createIfNotExists_spec "user-setup-complete" [] (by decide)).2 (by decide)⟩

/-- C7: a name containing a path separator or equal to "." / ".." makes
`Create`, `CreateIfNotExists`, `Exists` and `Remove` return a validation
error with the marker directory unchanged, in every environment (the
rejection happens before any filesystem I/O). -/
theorem invalidName_rejected (env : FSEnv) (name : String)
    (s : MarkerState)
    (h : hasChar name '/' = true ∨ hasChar name '\\' = true ∨
         name = "." ∨ name = "..") :
    (∃ m, Markers.Create env name s = (.error (.validation m), s)) ∧
    (∃ m, Markers.CreateIfNotExists env name s = (.error (.validation m), s)) ∧
    (∃ m, Markers.Exists env name s = (.error (.validation m), s)) ∧
    (∃ m, Markers.Remove env name s = (.error (.validation m), s)) := by
  obtain ⟨m, hm⟩ := validateMarkerName_invalid name h
  refine ⟨⟨m, ?_⟩, ⟨m, ?_⟩, ⟨m, ?_⟩, ⟨m, ?_⟩⟩ <;>
    simp [Markers.Create, Markers.CreateIfNotExists, Markers.Exists,
      Markers.Remove, hm]

theorem invalidName_rejected_witness :
    (∃ m, Markers.Create liveEnv "a/b" ["x"] = (.error (.validation m), ["x"])) ∧
    (∃ m, Markers.CreateIfNotExists liveEnv "a/b" ["x"] =
      (.error (.validation m), ["x"])) ∧
    (∃ m, Markers.Exists liveEnv "a/b" ["x"] = (.error (.validation m), ["x"])) ∧
    (∃ m, Markers.Remove liveEnv "a/b" ["x"] = (.error (.validation m), ["x"])) :=
  invalidName_rejected liveEnv "a/b" ["x"] (Or.inl (by decide))

/-- C10: the empty marker name is rejected with a validation error by every
name-taking operation, in every environment and every state, with the store
unchanged (no filesystem I/O is performed). -/
theorem emptyName_rejected (env : FSEnv) (s : MarkerState) :
    Markers.Create env "" s =
      (.error (.validation "marker name cannot be empty"), s) ∧
    Markers.CreateIfNotExists env "" s =
      (.error (.validation "marker name cannot be empty"), s) ∧
    Markers.Exists env "" s =
      (.error (.validation "marker name cannot be empty"), s) ∧
    Markers.Remove env "" s =
      (.error (.validation "marker name cannot be empty"), s) := by
  refine ⟨?_, ?_, ?_, ?_⟩ <;> rfl

/-- On the healthy filesystem, `GetStatus` of a valid name computes the
status from the two markers, failure first. -/
theorem getStatus_live (name : String) (s : MarkerState)
    (hv : validateMarkerName name = none) :
    GetStatus liveEnv name s =
      (.ok (if s.contains (name ++ "-failed") then .Failed
            else if s.contains name then .Completed else .NotStarted), s) := by
  have hvf := validateMarkerName_append_failed name hv
  unfold GetStatus Markers.IsFailed Markers.Exists liveEnv
  rw [hvf, hv]
  by_cases hf : (name ++ "-failed") ∈ s
  · simp [hf]
  · by_cases hc : name ∈ s
    · simp [hf, hc]
    · simp [hf, hc]

/-- C3: for every valid name, when the failure marker exists `GetStatus`
returns Failed regardless of the completion marker (failure takes
precedence); with only the completion marker it returns Completed; with
neither it returns NotStarted. -/
theorem getStatus_precedence (name : String) (s : MarkerState)
    (hv : validateMarkerName name = none) :
    (s.contains (name ++ "-failed") = true →
      (GetStatus liveEnv name s).1 = .ok .Failed) ∧
    (s.contains (name ++ "-failed") = false → s.contains name = true →
      (GetStatus liveEnv name s).1 = .ok .Completed) ∧
    (s.contains (name ++ "-failed") = false → s.contains name = false →
      (GetStatus liveEnv name s).1 = .ok .NotStarted) := by
  refine ⟨?_, ?_, ?_⟩ <;> intros <;> simp_all [getStatus_live name s hv]

theorem getStatus_precedence_witness :
    (GetStatus liveEnv "nfs-setup-complete"
      ["nfs-setup-complete", "nfs-setup-complete-failed"]).1 = .ok .Failed ∧
    (GetStatus liveEnv "nfs-setup-complete" ["nfs-setup-complete"]).1 =
      .ok .Completed ∧
    (GetStatus liveEnv "nfs-setup-complete" []).1 = .ok .NotStarted :=
  ⟨(getStatus_precedence "nfs-setup-complete" _ (by decide)).1 (by decide),
   (getStatus_precedence "nfs-setup-complete" _ (by decide)).2.1
     (by decide) (by decide),
   (getStatus_precedence "nfs-setup-complete" _ (by decide)).2.2
     (by decide) (by decide)⟩

end Homelab

namespace Homelab

/-- internal/steps `ensureCanonicalMarker` loop over the legacy names:
skip empty names and the canonical name itself; on an existing legacy
marker, atomically create the canonical marker and (only when this call
created it) best-effort remove the legacy marker, ignoring its error. -/
def migrateLegacy (env : FSEnv) (canonical : String) :
    List String → MarkerState → Except MError Bool × MarkerState
  | [], s => (.ok false, s)
  | legacyName :: rest, s =>
    if legacyName = "" || legacyName = canonical then
      migrateLegacy env canonical rest s
    else
      match Markers.Exists env legacyName s with
      | (.error e, s') => (.error e, s')
      | (.ok false, s') => migrateLegacy env canonical rest s'
      | (.ok true, s') =>
        match Markers.CreateIfNotExists env canonical s' with
        | (.error e, s'') => (.error e, s'')
        | (.ok wasCreated, s'') =>
          if wasCreated then (.ok true, (Markers.Remove env legacyName s'').2)
          else (.ok true, s'')

/-- internal/steps `ensureCanonicalMarker`: fast path when the canonical
marker exists, otherwise migrate the legacy markers. -/
def ensureCanonicalMarker (env : FSEnv) (canonical : String)
    (legacy : List String) (s : MarkerState) :
    Except MError Bool × MarkerState :=
  match Markers.Exists env canonical s with
  | (.error e, s') => (.error e, s')
  | (.ok true, s') => (.ok true, s')
  | (.ok false, s') => migrateLegacy env canonical legacy s'

/-- C2: starting from a state with the legacy marker present and the
canonical marker absent, `ensureCanonicalMarker` returns (true, nil),
afterwards the canonical marker exists and the legacy marker is absent,
and a second call returns (true, nil) again leaving the state unchanged. -/
theorem ensureCanonicalMarker_idem (canonical leg : String) (s : MarkerState)
    (hvc : validateMarkerName canonical = none)
    (hvl : validateMarkerName leg = none)
    (hne : leg ≠ canonical)
    (hcan : s.contains canonical = false)
    (hleg : s.contains leg = true) :
    ensureCanonicalMarker liveEnv canonical [leg] s =
      (.ok true, removeMarker (insertMarker s canonical) leg) ∧
    (removeMarker (insertMarker s canonical) leg).contains canonical = true ∧
    (removeMarker (insertMarker s canonical) leg).contains leg = false ∧
    ensureCanonicalMarker liveEnv canonical [leg]
        (removeMarker (insertMarker s canonical) leg) =
      (.ok true, removeMarker (insertMarker s canonical) leg) := by
  have hlne : leg ≠ "" := by
    rw [validateMarkerName_none_iff] at hvl
    exact hvl.1
  have hcan' : ¬ (canonical ∈ s) := by simpa using hcan
  have hleg' : leg ∈ s := by simpa using hleg
  have hlic : (insertMarker s canonical).contains leg = true := by
    rw [contains_insertMarker_ne s canonical leg hne]
    exact hleg
  have hlic' : leg ∈ insertMarker s canonical := by simpa using hlic
  have hfinc : (removeMarker (insertMarker s canonical) leg).contains canonical
      = true := by
    rw [contains_removeMarker_ne (insertMarker s canonical) leg canonical
      (Ne.symm hne)]
    exact contains_insertMarker_self s canonical
  have hfinc' : canonical ∈ removeMarker (insertMarker s canonical) leg := by
    simpa using hfinc
  refine ⟨?_, hfinc, contains_removeMarker_self _ _, ?_⟩
  · simp [ensureCanonicalMarker, migrateLegacy, Markers.Exists,
      Markers.CreateIfNotExists, Markers.Remove, liveEnv, hvc, hvl, hlne,
      hne, hcan', hleg', hlic']
  · simp [ensureCanonicalMarker, Markers.Exists, liveEnv, hvc, hfinc']

theorem ensureCanonicalMarker_idem_witness :
    ensureCanonicalMarker liveEnv "nfs-setup-complete" ["nfs-complete"]
        ["nfs-complete"] =
      (.ok true,
        removeMarker (insertMarker ["nfs-complete"] "nfs-setup-complete")
          "nfs-complete") ∧
    (removeMarker (insertMarker ["nfs-complete"] "nfs-setup-complete")
        "nfs-complete").contains "nfs-setup-complete" = true ∧
    (removeMarker (insertMarker ["nfs-complete"] "nfs-setup-complete")
        "nfs-complete").contains "nfs-complete" = false ∧
    ensureCanonicalMarker liveEnv "nfs-setup-complete" ["nfs-complete"]
        (removeMarker (insertMarker ["nfs-complete"] "nfs-setup-complete")
          "nfs-complete") =
      (.ok true,
        removeMarker (insertMarker ["nfs-complete"] "nfs-setup-complete")
          "nfs-complete") :=
  ensureCanonicalMarker_idem "nfs-setup-complete" "nfs-complete"
    ["nfs-complete"] (by decide) (by decide) (by decide) (by decide) (by decide)

end Homelab


namespace Homelab

/-- internal/cli `RunStep`'s switch (and `GetAllSteps`): the completion
marker name of each known short step name. -/
def markerNameOf (shortName : String) : Option String :=
  if shortName = "preflight" then some "preflight-complete"
  else if shortName = "user" then some "user-setup-complete"
  else if shortName = "directory" then some "directory-setup-complete"
  else if shortName = "wireguard" then some "wireguard-setup-complete"
  else if shortName = "nfs" then some "nfs-setup-complete"
  else if shortName = "container" then some "container-setup-complete"
  else if shortName = "deployment" then some "service-deployment-complete"
  else none

/-- The step bodies (runPreflight .. runDeployment) are external
collaborators: black boxes that may read and mutate the marker store and
return an error (some message) or success (none). -/
structure StepBodies where
  run : String → MarkerState → Option String × MarkerState

/-- internal/cli `RunStep`: dispatch on the short name (unknown names are
an error); run the step body; on body error, create the failure marker
(an error of that write is only warned about) and return the body error;
on body success, clear the failure marker and create the completion
marker (errors of those two writes are only warned about) and return nil. -/
def RunStep (env : FSEnv) (bodies : StepBodies) (shortName : String)
    (s : MarkerState) : Option String × MarkerState :=
  match markerNameOf shortName with
  | none => (some ("unknown step: " ++ shortName), s)
  | some markerName =>
    match bodies.run shortName s with
    | (some e, s1) => (some e, (Markers.MarkFailed env markerName s1).2)
    | (none, s1) =>
      let s2 := (Markers.ClearFailure env markerName s1).2
      let s3 := (Markers.Create env markerName s2).2
      (none, s3)

/-- internal/cli `RunAll`'s step list: preflight, user, directory, then
wireguard unless skipped, then nfs, container, deployment. -/
def runAllSequence (skipWireGuard : Bool) : List String :=
  (["preflight", "user", "directory"] ++
    (if skipWireGuard then [] else ["wireguard"])) ++
  ["nfs", "container", "deployment"]

/-- internal/cli `RunAll`'s loop: run each step in order, stopping at the
first failure and wrapping its error as "step <name> failed: <err>". -/
def RunAllGo (env : FSEnv) (bodies : StepBodies) :
    List String → MarkerState → Option String × MarkerState
  | [], s => (none, s)
  | st :: rest, s =>
    match RunStep env bodies st s with
    | (some e, s') => (some ("step " ++ st ++ " failed: " ++ e), s')
    | (none, s') => RunAllGo env bodies rest s'

/-- internal/cli `RunAll`. -/
def RunAll (env : FSEnv) (bodies : StepBodies) (skipWireGuard : Bool)
    (s : MarkerState) : Option String × MarkerState :=
  RunAllGo env bodies (runAllSequence skipWireGuard) s

/-- The short names `RunAll`'s loop invokes `RunStep` on, in order
(companion of the same recursion as `RunAllGo`). -/
def RunAllTraceGo (env : FSEnv) (bodies : StepBodies) :
    List String → MarkerState → List String
  | [], _ => []
  | st :: rest, s =>
    match RunStep env bodies st s with
    | (some _, _) => [st]
    | (none, s') => st :: RunAllTraceGo env bodies rest s'

/-- The steps `RunAll` invokes, in order. -/
def RunAllTrace (env : FSEnv) (bodies : StepBodies) (skipWireGuard : Bool)
    (s : MarkerState) : List String :=
  RunAllTraceGo env bodies (runAllSequence skipWireGuard) s

/-- Every known step's completion marker name, and its failure-marker
companion, is a valid marker name distinct from the other. -/
theorem markerNameOf_valid (shortName markerName : String)
    (h : markerNameOf shortName = some markerName) :
    validateMarkerName markerName = none ∧
    validateMarkerName (markerName ++ "-failed") = none ∧
    markerName ≠ markerName ++ "-failed" := by
  unfold markerNameOf at h
  split_ifs at h <;> simp at h <;>
    (subst h; exact ⟨by decide, by decide, by decide⟩)

/-- `Remove` on the healthy filesystem: membership after the call. -/
theorem remove_live_mem (name m : String) (s : MarkerState)
    (hv : validateMarkerName name = none) :
    m ∈ (Markers.Remove liveEnv name s).2 ↔ (m ≠ name ∧ m ∈ s) := by
  unfold Markers.Remove liveEnv
  rw [hv]
  by_cases hc : name ∈ s
  · simp [hc, removeMarker, List.mem_filter]
    tauto
  · simp [hc]
    intro hm he
    exact hc (he ▸ hm)

/-- `Create` on the healthy filesystem: membership after the call. -/
theorem create_live_mem (name m : String) (s : MarkerState)
    (hv : validateMarkerName name = none) :
    m ∈ (Markers.Create liveEnv name s).2 ↔ (m = name ∨ m ∈ s) := by
  unfold Markers.Create liveEnv
  rw [hv]
  by_cases hc : name ∈ s
  · simp [insertMarker, hc]
    intro hm
    exact hm ▸ hc
  · simp [insertMarker, hc]

end Homelab

namespace Homelab

/-- C4: for every known step, when the body errors `RunStep` creates the
failure marker and returns the body's error without creating the
completion marker; when the body succeeds `RunStep` clears the failure
marker, creates the completion marker, and `GetStatus` of the step's
marker afterwards is Completed. -/
theorem runStep_marker_protocol (bodies : StepBodies)
    (shortName markerName : String) (s : MarkerState)
    (hmk : markerNameOf shortName = some markerName) :
    (∀ e s1, bodies.run shortName s = (some e, s1) →
      (RunStep liveEnv bodies shortName s).1 = some e ∧
      (markerName ++ "-failed") ∈ (RunStep liveEnv bodies shortName s).2 ∧
      (markerName ∈ (RunStep liveEnv bodies shortName s).2 ↔ markerName ∈ s1)) ∧
    (∀ s1, bodies.run shortName s = (none, s1) →
      (RunStep liveEnv bodies shortName s).1 = none ∧
      markerName ∈ (RunStep liveEnv bodies shortName s).2 ∧
      (markerName ++ "-failed") ∉ (RunStep liveEnv bodies shortName s).2 ∧
      (GetStatus liveEnv markerName ((RunStep liveEnv bodies shortName s).2)).1 =
        .ok .Completed) := by
  obtain ⟨hv, hvf, hnef⟩ := markerNameOf_valid shortName markerName hmk
  constructor
  · intro e s1 hbody
    have hrun : RunStep liveEnv bodies shortName s =
        (some e, (Markers.MarkFailed liveEnv markerName s1).2) := by
      simp [RunStep, hmk, hbody]
    rw [hrun]
    refine ⟨rfl, ?_, ?_⟩
    · simp only [Markers.MarkFailed]
      exact (create_live_mem _ _ _ hvf).mpr (Or.inl rfl)
    · simp only [Markers.MarkFailed]
      rw [create_live_mem _ _ _ hvf]
      constructor
      · rintro (h | h)
        · exact absurd h hnef
        · exact h
      · exact Or.inr
  · intro s1 hbody
    have hrun : RunStep liveEnv bodies shortName s =
        (none, (Markers.Create liveEnv markerName
          ((Markers.ClearFailure liveEnv markerName s1).2)).2) := by
      simp [RunStep, hmk, hbody, Markers.ClearFailure]
    rw [hrun]
    have hm1 : markerName ∈ (Markers.Create liveEnv markerName
        ((Markers.ClearFailure liveEnv markerName s1).2)).2 :=
      (create_live_mem _ _ _ hv).mpr (Or.inl rfl)
    have hm2 : (markerName ++ "-failed") ∉ (Markers.Create liveEnv markerName
        ((Markers.ClearFailure liveEnv markerName s1).2)).2 := by
      rw [create_live_mem _ _ _ hv]
      rintro (h | h)
      · exact hnef h.symm
      · rw [Markers.ClearFailure, remove_live_mem _ _ _ hvf] at h
        exact h.1 rfl
    refine ⟨rfl, hm1, hm2, ?_⟩
    rw [getStatus_live _ _ hv]
    simp [hm1, hm2]

theorem runStep_marker_protocol_witness :
    ((RunStep liveEnv ⟨fun _ s => (some "boom", s)⟩ "nfs" []).1 = some "boom" ∧
      ("nfs-setup-complete" ++ "-failed") ∈
        (RunStep liveEnv ⟨fun _ s => (some "boom", s)⟩ "nfs" []).2 ∧
      ("nfs-setup-complete" ∈
          (RunStep liveEnv ⟨fun _ s => (some "boom", s)⟩ "nfs" []).2 ↔
        "nfs-setup-complete" ∈ ([] : MarkerState))) ∧
    ((RunStep liveEnv ⟨fun _ s => (none, s)⟩ "nfs"
        ["nfs-setup-complete-failed"]).1 = none ∧
      "nfs-setup-complete" ∈ (RunStep liveEnv ⟨fun _ s => (none, s)⟩ "nfs"
        ["nfs-setup-complete-failed"]).2 ∧
      ("nfs-setup-complete" ++ "-failed") ∉
        (RunStep liveEnv ⟨fun _ s => (none, s)⟩ "nfs"
          ["nfs-setup-complete-failed"]).2 ∧
      (GetStatus liveEnv "nfs-setup-complete"
        ((RunStep liveEnv ⟨fun _ s => (none, s)⟩ "nfs"
          ["nfs-setup-complete-failed"]).2)).1 = .ok .Completed) :=
  ⟨(runStep_marker_protocol ⟨fun _ s => (some "boom", s)⟩ "nfs"
      "nfs-setup-complete" [] (by decide)).1 "boom" [] rfl,
   (runStep_marker_protocol ⟨fun _ s => (none, s)⟩ "nfs"
      "nfs-setup-complete" ["nfs-setup-complete-failed"] (by decide)).2
      ["nfs-setup-complete-failed"] rfl⟩

end Homelab

namespace Homelab

/-- The loop of `RunAll` either runs every step of its list successfully,
or stops at the first step whose `RunStep` fails, having invoked exactly
the steps up to and including it, and returns the wrapped error naming
that step. -/
theorem runAllGo_spec (env : FSEnv) (bodies : StepBodies) :
    ∀ (l : List String) (s : MarkerState),
    ((RunAllGo env bodies l s).1 = none ∧ RunAllTraceGo env bodies l s = l) ∨
    (∃ pre st post e s',
      l = pre ++ st :: post ∧
      RunAllTraceGo env bodies l s = pre ++ [st] ∧
      (RunStep env bodies st s').1 = some e ∧
      (RunAllGo env bodies l s).1 =
        some ("step " ++ st ++ " failed: " ++ e)) := by
  intro l
  induction l with
  | nil =>
    intro s
    exact Or.inl ⟨rfl, rfl⟩
  | cons st rest ih =>
    intro s
    rcases hrs : RunStep env bodies st s with ⟨fst, snd⟩
    cases fst with
    | some e =>
      right
      exact ⟨[], st, rest, e, s,
        rfl,
        by simp [RunAllTraceGo, hrs],
        by rw [hrs],
        by simp [RunAllGo, hrs]⟩
    | none =>
      rcases ih snd with ⟨h1, h2⟩ | ⟨pre, st', post, e, s', hl, ht, hstep, herr⟩
      · left
        constructor
        · simpa [RunAllGo, hrs] using h1
        · simp [RunAllTraceGo, hrs, h2]
      · right
        exact ⟨st :: pre, st', post, e, s',
          by rw [hl]; rfl,
          by simp [RunAllTraceGo, hrs, ht],
          hstep,
          by simpa [RunAllGo, hrs] using herr⟩

/-- C5: `RunAll` uses the fixed order preflight, user, directory,
wireguard, nfs, container, deployment, omitting wireguard exactly when the
skip option is set; it invokes the steps in that order, and either all
succeed, or it stops at the first step whose `RunStep` fails — invoking no
later step — and returns an error naming that step and wrapping the
underlying error. -/
theorem runAll_spec :
    runAllSequence false =
      ["preflight", "user", "directory", "wireguard", "nfs", "container",
        "deployment"] ∧
    runAllSequence true =
      ["preflight", "user", "directory", "nfs", "container", "deployment"] ∧
    ∀ (env : FSEnv) (bodies : StepBodies) (skipWireGuard : Bool)
      (s : MarkerState),
      ((RunAll env bodies skipWireGuard s).1 = none ∧
        RunAllTrace env bodies skipWireGuard s = runAllSequence skipWireGuard) ∨
      (∃ pre st post e s',
        runAllSequence skipWireGuard = pre ++ st :: post ∧
        RunAllTrace env bodies skipWireGuard s = pre ++ [st] ∧
        (RunStep env bodies st s').1 = some e ∧
        (RunAll env bodies skipWireGuard s).1 =
          some ("step " ++ st ++ " failed: " ++ e)) :=
  ⟨rfl, rfl, fun env bodies skip s =>
    runAllGo_spec env bodies (runAllSequence skip) s⟩

/-- The environment of C8's counterexample: creating marker files fails
(for instance, the disk is full), everything else succeeds. -/
def createFailEnv : FSEnv := ⟨false, true, false, false⟩

/-- C8 counterexample: with marker-file creation failing, a successful
"nfs" step body makes `RunStep` return success (none) even though the
completion-marker write failed — the I/O failure is not propagated, so the
claim that RunStep propagates such failures is false on this input. -/
theorem runStep_swallows_write_failure_cex :
    (Markers.Create createFailEnv "nfs-setup-complete" ([] : MarkerState)).1 =
      .error (.ioe "failed to create marker file") ∧
    RunStep createFailEnv ⟨fun _ s => (none, s)⟩ "nfs" ([] : MarkerState) =
      (none, ([] : MarkerState)) := by
  exact ⟨rfl, rfl⟩

/-- C8 amended: when the step body succeeds, `RunStep` returns success in
every environment — failures of the failure-marker clear or of the
completion-marker write are only warned about, never propagated to the
caller. -/
theorem runStep_success_ignores_marker_write_failures (env : FSEnv)
    (bodies : StepBodies) (shortName markerName : String)
    (s s1 : MarkerState)
    (hmk : markerNameOf shortName = some markerName)
    (hbody : bodies.run shortName s = (none, s1)) :
    (RunStep env bodies shortName s).1 = none := by
  simp [RunStep, hmk, hbody]

theorem runStep_success_ignores_marker_write_failures_witness :
    (RunStep createFailEnv ⟨fun _ s => (none, s)⟩ "nfs"
      ([] : MarkerState)).1 = none :=
  runStep_success_ignores_marker_write_failures createFailEnv
    ⟨fun _ s => (none, s)⟩ "nfs" "nfs-setup-complete" [] [] (by decide) rfl

end Homelab

namespace Homelab

/-- internal/system `FileSystem`: the wrapped live filesystem, an external
collaborator.  `σ` is the filesystem state; mutating operations return a
Go error (some message) or nil plus the new state, read-only operations
return a value or an error and do not change the state.  Permissions are
os.FileMode bits (a Nat), file content a byte list. -/
structure FileSystem (σ : Type) where
  ensureDirectory : String → String → Nat → σ → Option String × σ
  chown : String → String → σ → Option String × σ
  chownRecursive : String → String → σ → Option String × σ
  chmod : String → Nat → σ → Option String × σ
  chmodRecursive : String → Nat → σ → Option String × σ
  writeFile : String → List Nat → Nat → σ → Option String × σ
  removeDirectory : String → σ → Option String × σ
  removeFile : String → σ → Option String × σ
  copyFile : String → String → σ → Option String × σ
  createSymlink : String → String → σ → Option String × σ
  backupFile : String → σ → Except String String × σ
  fileExists : String → σ → Except String Bool
  directoryExists : String → σ → Except String Bool
  getOwner : String → σ → Except String String
  getPermissions : String → σ → Except String Nat
  getDiskUsage : String → σ → Except String (Nat × Nat × Nat)
  getDiskUsageHuman : String → σ → Except String String
  countFiles : String → σ → Except String Nat
  listDirectory : String → σ → Except String (List String)
  getFileSize : String → σ → Except String Int
  isMount : String → σ → Except String Bool

namespace DryRunFileSystem

variable {σ : Type}

/-- filesystem_dryrun.go `EnsureDirectory`: with dry-run, log and return
nil without touching the filesystem; otherwise delegate. -/
def EnsureDirectory (fs : FileSystem σ) (dryRun : Bool) (path owner : String)
    (perms : Nat) (s : σ) : Option String × σ :=
  if dryRun then (none, s) else fs.ensureDirectory path owner perms s

/-- filesystem_dryrun.go `Chown`. -/
def Chown (fs : FileSystem σ) (dryRun : Bool) (path owner : String) (s : σ) :
    Option String × σ :=
  if dryRun then (none, s) else fs.chown path owner s

/-- filesystem_dryrun.go `ChownRecursive`. -/
def ChownRecursive (fs : FileSystem σ) (dryRun : Bool) (path owner : String)
    (s : σ) : Option String × σ :=
  if dryRun then (none, s) else fs.chownRecursive path owner s

/-- filesystem_dryrun.go `Chmod`. -/
def Chmod (fs : FileSystem σ) (dryRun : Bool) (path : String) (perms : Nat)
    (s : σ) : Option String × σ :=
  if dryRun then (none, s) else fs.chmod path perms s

/-- filesystem_dryrun.go `ChmodRecursive`. -/
def ChmodRecursive (fs : FileSystem σ) (dryRun : Bool) (path : String)
    (perms : Nat) (s : σ) : Option String × σ :=
  if dryRun then (none, s) else fs.chmodRecursive path perms s

/-- filesystem_dryrun.go `WriteFile`. -/
def WriteFile (fs : FileSystem σ) (dryRun : Bool) (path : String)
    (content : List Nat) (perms : Nat) (s : σ) : Option String × σ :=
  if dryRun then (none, s) else fs.writeFile path content perms s

/-- filesystem_dryrun.go `RemoveDirectory`. -/
def RemoveDirectory (fs : FileSystem σ) (dryRun : Bool) (path : String)
    (s : σ) : Option String × σ :=
  if dryRun then (none, s) else fs.removeDirectory path s

/-- filesystem_dryrun.go `RemoveFile`. -/
def RemoveFile (fs : FileSystem σ) (dryRun : Bool) (path : String) (s : σ) :
    Option String × σ :=
  if dryRun then (none, s) else fs.removeFile path s

/-- filesystem_dryrun.go `CopyFile`. -/
def CopyFile (fs : FileSystem σ) (dryRun : Bool) (src dst : String) (s : σ) :
    Option String × σ :=
  if dryRun then (none, s) else fs.copyFile src dst s

/-- filesystem_dryrun.go `CreateSymlink`. -/
def CreateSymlink (fs : FileSystem σ) (dryRun : Bool)
    (target linkPath : String) (s : σ) : Option String × σ :=
  if dryRun then (none, s) else fs.createSymlink target linkPath s

/-- filesystem_dryrun.go `BackupFile`: with dry-run, a fake backup path is
reported and the filesystem is untouched. -/
def BackupFile (fs : FileSystem σ) (dryRun : Bool) (path : String) (s : σ) :
    Except String String × σ :=
  if dryRun then (.ok (path ++ ".backup.DRYRUN"), s) else fs.backupFile path s

/-- filesystem_dryrun.go `FileExists`: read-only, always passes through. -/
def FileExists (fs : FileSystem σ) (_dryRun : Bool) (path : String) (s : σ) :
    Except String Bool :=
  fs.fileExists path s

/-- filesystem_dryrun.go `DirectoryExists`. -/
def DirectoryExists (fs : FileSystem σ) (_dryRun : Bool) (path : String)
    (s : σ) : Except String Bool :=
  fs.directoryExists path s

/-- filesystem_dryrun.go `GetOwner`. -/
def GetOwner (fs : FileSystem σ) (_dryRun : Bool) (path : String) (s : σ) :
    Except String String :=
  fs.getOwner path s

/-- filesystem_dryrun.go `GetPermissions`. -/
def GetPermissions (fs : FileSystem σ) (_dryRun : Bool) (path : String)
    (s : σ) : Except String Nat :=
  fs.getPermissions path s

/-- filesystem_dryrun.go `GetDiskUsage`. -/
def GetDiskUsage (fs : FileSystem σ) (_dryRun : Bool) (path : String) (s : σ) :
    Except String (Nat × Nat × Nat) :=
  fs.getDiskUsage path s

/-- filesystem_dryrun.go `GetDiskUsageHuman`. -/
def GetDiskUsageHuman (fs : FileSystem σ) (_dryRun : Bool) (path : String)
    (s : σ) : Except String String :=
  fs.getDiskUsageHuman path s

/-- filesystem_dryrun.go `CountFiles`. -/
def CountFiles (fs : FileSystem σ) (_dryRun : Bool) (path : String) (s : σ) :
    Except String Nat :=
  fs.countFiles path s

/-- filesystem_dryrun.go `ListDirectory`. -/
def ListDirectory (fs : FileSystem σ) (_dryRun : Bool) (path : String)
    (s : σ) : Except String (List String) :=
  fs.listDirectory path s

/-- filesystem_dryrun.go `GetFileSize`. -/
def GetFileSize (fs : FileSystem σ) (_dryRun : Bool) (path : String) (s : σ) :
    Except String Int :=
  fs.getFileSize path s

/-- filesystem_dryrun.go `IsMount`. -/
def IsMount (fs : FileSystem σ) (_dryRun : Bool) (path : String) (s : σ) :
    Except String Bool :=
  fs.isMount path s

end DryRunFileSystem

/-- A call to one of the mutating operations of `DryRunFileSystem`. -/
inductive FsCall where
  | ensureDirectory (path owner : String) (perms : Nat)
  | chown (path owner : String)
  | chownRecursive (path owner : String)
  | chmod (path : String) (perms : Nat)
  | chmodRecursive (path : String) (perms : Nat)
  | writeFile (path : String) (content : List Nat) (perms : Nat)
  | removeDirectory (path : String)
  | removeFile (path : String)
  | copyFile (src dst : String)
  | createSymlink (target linkPath : String)

/-- Dispatch one mutating call through `DryRunFileSystem`. -/
def execCall {σ : Type} (fs : FileSystem σ) (dryRun : Bool) :
    FsCall → σ → Option String × σ
  | .ensureDirectory p o m, s => DryRunFileSystem.EnsureDirectory fs dryRun p o m s
  | .chown p o, s => DryRunFileSystem.Chown fs dryRun p o s
  | .chownRecursive p o, s => DryRunFileSystem.ChownRecursive fs dryRun p o s
  | .chmod p m, s => DryRunFileSystem.Chmod fs dryRun p m s
  | .chmodRecursive p m, s => DryRunFileSystem.ChmodRecursive fs dryRun p m s
  | .writeFile p c m, s => DryRunFileSystem.WriteFile fs dryRun p c m s
  | .removeDirectory p, s => DryRunFileSystem.RemoveDirectory fs dryRun p s
  | .removeFile p, s => DryRunFileSystem.RemoveFile fs dryRun p s
  | .copyFile a b, s => DryRunFileSystem.CopyFile fs dryRun a b s
  | .createSymlink t l, s => DryRunFileSystem.CreateSymlink fs dryRun t l s

/-- The filesystem state after a sequence of mutating calls. -/
def execCalls {σ : Type} (fs : FileSystem σ) (dryRun : Bool) :
    List FsCall → σ → σ
  | [], s => s
  | c :: rest, s => execCalls fs dryRun rest (execCall fs dryRun c s).2

end Homelab

namespace Homelab

/-- C6: with dry-run enabled, every mutating operation of
`DryRunFileSystem` returns nil and leaves the filesystem state unchanged
whatever the wrapped filesystem would do — for single calls and for any
sequence of calls — while every read-only operation delegates to the
wrapped filesystem and returns exactly the live-mode value on the same
starting state. -/
theorem dryRun_purity (σ : Type) (fs : FileSystem σ) :
    (∀ p o m s, DryRunFileSystem.EnsureDirectory fs true p o m s = (none, s)) ∧
    (∀ p o s, DryRunFileSystem.Chown fs true p o s = (none, s)) ∧
    (∀ p o s, DryRunFileSystem.ChownRecursive fs true p o s = (none, s)) ∧
    (∀ p m s, DryRunFileSystem.Chmod fs true p m s = (none, s)) ∧
    (∀ p m s, DryRunFileSystem.ChmodRecursive fs true p m s = (none, s)) ∧
    (∀ p c m s, DryRunFileSystem.WriteFile fs true p c m s = (none, s)) ∧
    (∀ p s, DryRunFileSystem.RemoveDirectory fs true p s = (none, s)) ∧
    (∀ p s, DryRunFileSystem.RemoveFile fs true p s = (none, s)) ∧
    (∀ a b s, DryRunFileSystem.CopyFile fs true a b s = (none, s)) ∧
    (∀ t l s, DryRunFileSystem.CreateSymlink fs true t l s = (none, s)) ∧
    (∀ c s, execCall fs true c s = (none, s)) ∧
    (∀ calls s, execCalls fs true calls s = s) ∧
    (∀ p s, DryRunFileSystem.FileExists fs true p s = fs.fileExists p s ∧
      DryRunFileSystem.FileExists fs false p s = fs.fileExists p s) ∧
    (∀ p s, DryRunFileSystem.DirectoryExists fs true p s =
        fs.directoryExists p s ∧
      DryRunFileSystem.DirectoryExists fs false p s = fs.directoryExists p s) ∧
    (∀ p s, DryRunFileSystem.GetOwner fs true p s = fs.getOwner p s ∧
      DryRunFileSystem.GetOwner fs false p s = fs.getOwner p s) ∧
    (∀ p s, DryRunFileSystem.GetPermissions fs true p s =
        fs.getPermissions p s ∧
      DryRunFileSystem.GetPermissions fs false p s = fs.getPermissions p s) ∧
    (∀ p s, DryRunFileSystem.GetDiskUsage fs true p s = fs.getDiskUsage p s ∧
      DryRunFileSystem.GetDiskUsage fs false p s = fs.getDiskUsage p s) ∧
    (∀ p s, DryRunFileSystem.GetDiskUsageHuman fs true p s =
        fs.getDiskUsageHuman p s ∧
      DryRunFileSystem.GetDiskUsageHuman fs false p s =
        fs.getDiskUsageHuman p s) ∧
    (∀ p s, DryRunFileSystem.CountFiles fs true p s = fs.countFiles p s ∧
      DryRunFileSystem.CountFiles fs false p s = fs.countFiles p s) ∧
    (∀ p s, DryRunFileSystem.ListDirectory fs true p s =
        fs.listDirectory p s ∧
      DryRunFileSystem.ListDirectory fs false p s = fs.listDirectory p s) ∧
    (∀ p s, DryRunFileSystem.GetFileSize fs true p s = fs.getFileSize p s ∧
      DryRunFileSystem.GetFileSize fs false p s = fs.getFileSize p s) ∧
    (∀ p s, DryRunFileSystem.IsMount fs true p s = fs.isMount p s ∧
      DryRunFileSystem.IsMount fs false p s = fs.isMount p s) := by
  have hcall : ∀ (c : FsCall) (s : σ), execCall fs true c s = (none, s) := by
    intro c s
    cases c <;> rfl
  have hcalls : ∀ (calls : List FsCall) (s : σ),
      execCalls fs true calls s = s := by
    intro calls
    induction calls with
    | nil => intro s; rfl
    | cons c rest ih =>
      intro s
      show execCalls fs true rest (execCall fs true c s).2 = s
      rw [hcall c s]
      exact ih s
  exact ⟨fun _ _ _ _ => rfl, fun _ _ _ => rfl, fun _ _ _ => rfl,
    fun _ _ _ => rfl, fun _ _ _ => rfl, fun _ _ _ _ => rfl, fun _ _ => rfl,
    fun _ _ => rfl, fun _ _ _ => rfl, fun _ _ _ => rfl, hcall, hcalls,
    fun _ _ => ⟨rfl, rfl⟩, fun _ _ => ⟨rfl, rfl⟩, fun _ _ => ⟨rfl, rfl⟩,
    fun _ _ => ⟨rfl, rfl⟩, fun _ _ => ⟨rfl, rfl⟩, fun _ _ => ⟨rfl, rfl⟩,
    fun _ _ => ⟨rfl, rfl⟩, fun _ _ => ⟨rfl, rfl⟩, fun _ _ => ⟨rfl, rfl⟩,
    fun _ _ => ⟨rfl, rfl⟩⟩

end Homelab

namespace Homelab

/-- internal/config keys.go `Defaults`: the static built-in defaults
table. -/
def Defaults : List (String × String) :=
  [("HOMELAB_BASE_DIR", "/srv/containers"),
   ("CONTAINER_RUNTIME", "podman"),
   ("NFS_MOUNT_POINT", "/mnt/nas"),
   ("NFS_FSTAB_PATH", "/etc/fstab"),
   ("NETWORK_TEST_RETRIES", "5"),
   ("NETWORK_TEST_TIMEOUT", "10"),
   ("CONFIG_VERSION", "1"),
   ("WG_INTERFACE", "wg0"),
   ("WG_LISTEN_PORT", "51820")]

/-- Lookup in an association-list table (a Go map literal). -/
def lookupKey : List (String × String) → String → Option String
  | [], _ => none
  | (k, v) :: rest, key => if k = key then some v else lookupKey rest key

/-- Modelled from the spec: `Config.GetOrDefault` — its implementation
(internal/config/config.go) is not among the provided sources, only the
`Defaults` table it consults and its callers are.  Per the spec, the
resolution order is the stored value, then the static built-in defaults
table, then the caller's fallback, and the function never fails.  The
stored data is the config store's in-memory map. -/
def GetOrDefault (stored : String → Option String) (key fallback : String) :
    String :=
  match stored key with
  | some v => v
  | none =>
    match lookupKey Defaults key with
    | some v => v
    | none => fallback

theorem lookupKey_Defaults_nfsMountPoint :
    lookupKey Defaults "NFS_MOUNT_POINT" = some "/mnt/nas" := rfl

/-- C9: `GetOrDefault` resolves in the order stored value, then built-in
default, then caller fallback; for `NFS_MOUNT_POINT` the built-in default
is "/mnt/nas", so the fallback is returned only for keys with no built-in
default. -/
theorem getOrDefault_resolution :
    (∀ (stored : String → Option String) (key fallback v : String),
      stored key = some v → GetOrDefault stored key fallback = v) ∧
    (∀ (stored : String → Option String) (key fallback d : String),
      stored key = none → lookupKey Defaults key = some d →
      GetOrDefault stored key fallback = d) ∧
    (∀ (stored : String → Option String) (key fallback : String),
      stored key = none → lookupKey Defaults key = none →
      GetOrDefault stored key fallback = fallback) ∧
    lookupKey Defaults "NFS_MOUNT_POINT" = some "/mnt/nas" ∧
    (∀ (stored : String → Option String) (fallback : String),
      stored "NFS_MOUNT_POINT" = none →
      GetOrDefault stored "NFS_MOUNT_POINT" fallback = "/mnt/nas") := by
  refine ⟨?_, ?_, ?_, rfl, ?_⟩
  · intro stored key fallback v h
    simp [GetOrDefault, h]
  · intro stored key fallback d h1 h2
    simp [GetOrDefault, h1, h2]
  · intro stored key fallback h1 h2
    simp [GetOrDefault, h1, h2]
  · intro stored fallback h
    simp [GetOrDefault, h, lookupKey_Defaults_nfsMountPoint]

theorem getOrDefault_resolution_witness :
    GetOrDefault
        (fun k => if k = "NFS_MOUNT_POINT" then some "/data" else none)
        "NFS_MOUNT_POINT" "/custom" = "/data" ∧
    GetOrDefault (fun _ => none) "NFS_MOUNT_POINT" "/custom" = "/mnt/nas" ∧
    GetOrDefault (fun _ => none) "JELLYFIN_PUBLIC_URL" "/custom" = "/custom" :=
  ⟨getOrDefault_resolution.1 _ "NFS_MOUNT_POINT" "/custom" "/data" rfl,
   getOrDefault_resolution.2.2.2.2 _ "/custom" rfl,
   getOrDefault_resolution.2.2.1 _ "JELLYFIN_PUBLIC_URL" "/custom" rfl rfl⟩

end Homelab
